import Mathlib

/-!
Shallow embedding of the NPS analysis engine of `nps_analyzer.py` and the
thin shell of `app.py`.  Python floats are modelled as exact rationals (ℚ);
`round(x, n)` is modelled as round-half-to-even at `n` decimal places and
`int(x)` as truncation toward zero.  pandas `groupby` enumerates groups in
ascending key order (its default `sort=True`), which is how group discovery
order is modelled; Python's `list.sort` is stable (also with `reverse=True`),
which is modelled by a stable insertion sort with a non-strict comparator.
Travel dates are modelled as natural-number day keys: the source formats them
as `YYYY-MM-DD` strings whose lexicographic order is chronological order.
-/

namespace NPSApp

/-- Round-half-to-even of a rational to the nearest integer, as Python's
`round` does on the fractional part. -/
def pyRoundNearest (q : ℚ) : ℤ :=
  let f := ⌊q⌋
  let r := q - f
  if r < 1/2 then f
  else if 1/2 < r then f + 1
  else if f % 2 = 0 then f else f + 1

/-- Python `round(x, 2)`. -/
def round2 (q : ℚ) : ℚ := (pyRoundNearest (q * 100) : ℚ) / 100

/-- Python `round(x, 4)`. -/
def round4 (q : ℚ) : ℚ := (pyRoundNearest (q * 10000) : ℚ) / 10000

/-- Python `int(x)`: truncation toward zero. -/
def pyTrunc (q : ℚ) : ℤ := if 0 ≤ q then ⌊q⌋ else -⌊-q⌋

/-- One row of the loaded table (the required columns of `NPSAnalyzer`). -/
structure Record where
  orderId : String       -- 订单号
  supplierId : ℤ         -- 成团供应商id
  supplierName : String  -- 成团供应商名称
  accountUid : ℤ         -- 成团子账号uid
  accountName : String   -- 成团子账号名称
  travelDate : ℕ         -- 成团出行日期, normalized day key
  followerId : ℤ         -- 跟进人id
  followerName : String  -- 跟进人姓名
  denomV5 : ℚ            -- 分母V5
  detractorV5 : ℚ        -- 拟合诋毁V5
  promoterV5 : ℚ         -- 拟合推荐V5
  hasFeedback : ℚ        -- 有用户反馈
deriving DecidableEq

/-- A parsed table as returned by `pd.read_excel`: its column names (what the
schema validation inspects) and its rows. -/
structure DataFrame where
  columns : List String
  rows : List Record
deriving DecidableEq

/-- `NPSAnalyzer.REQUIRED_COLUMNS`. -/
def REQUIRED_COLUMNS : List String :=
  ["订单号", "成团供应商id", "成团供应商名称", "成团子账号uid", "成团子账号名称",
   "成团出行日期", "跟进人id", "跟进人姓名", "分母V5", "拟合诋毁V5",
   "拟合推荐V5", "有用户反馈"]

/-- The mutable state of one `NPSAnalyzer` instance. -/
structure NPSAnalyzer where
  npsTarget : ℤ
  df : Option DataFrame
  overallNps : ℚ
deriving DecidableEq

/-- `NPSAnalyzer.__init__`. -/
def NPSAnalyzer.init (npsTarget : ℤ) : NPSAnalyzer :=
  { npsTarget := npsTarget, df := none, overallNps := 0 }

/-- The rows of the currently loaded dataframe (empty when none is loaded). -/
def dfRows (st : NPSAnalyzer) : List Record :=
  match st.df with
  | none => []
  | some d => d.rows

/-- Stable insertion of `a` into `l`: `a` is placed before the first element
`b` with `le a b`, hence before every tie and after every strictly smaller
earlier element. -/
def insortBy {α : Type} (le : α → α → Prop) [DecidableRel le] (a : α) :
    List α → List α
  | [] => [a]
  | b :: l => if le a b then a :: b :: l else b :: insortBy le a l

/-- Stable sort with a non-strict comparator: the model of Python's stable
`list.sort`. -/
def sortBy {α : Type} (le : α → α → Prop) [DecidableRel le] :
    List α → List α
  | [] => []
  | a :: l => insortBy le a (sortBy le l)

/-- Ascending order on pandas groupby keys `(id, name)`: numeric id first,
then name. -/
def keyLe (a b : ℤ × String) : Prop :=
  a.1 < b.1 ∨ (a.1 = b.1 ∧ a.2 ≤ b.2)

instance : DecidableRel keyLe := fun a b =>
  inferInstanceAs (Decidable (a.1 < b.1 ∨ (a.1 = b.1 ∧ a.2 ≤ b.2)))

/-- Descending-NPS comparator used for `results.sort(key=..., reverse=True)`:
ties compare as true, so the stable sort preserves their original order. -/
def byNpsDesc {α : Type} (f : α → ℚ) (a b : α) : Prop := f b ≤ f a

instance {α : Type} (f : α → ℚ) : DecidableRel (byNpsDesc f) := fun a b =>
  inferInstanceAs (Decidable (f b ≤ f a))

/-- Sum of column 分母V5 over a group. -/
def effectiveDenominator (g : List Record) : ℚ :=
  (g.map fun r => r.denomV5).sum

/-- Sum of column 拟合诋毁V5 over a group. -/
def detractorSum (g : List Record) : ℚ :=
  (g.map fun r => r.detractorV5).sum

/-- Sum of 拟合推荐V5 × 分母V5 over a group. -/
def promoterSum (g : List Record) : ℚ :=
  (g.map fun r => r.promoterV5 * r.denomV5).sum

/-- The local variable `detractor_rate` of `_calc_nps_metrics`. -/
def detractorRateRaw (g : List Record) : ℚ :=
  if 0 < effectiveDenominator g then detractorSum g / effectiveDenominator g else 0

/-- The local variable `promoter_rate` of `_calc_nps_metrics`. -/
def promoterRateRaw (g : List Record) : ℚ :=
  if 0 < effectiveDenominator g then promoterSum g / effectiveDenominator g else 0

/-- The local variable `nps` of `_calc_nps_metrics`. -/
def npsRaw (g : List Record) : ℚ :=
  if 0 < effectiveDenominator g then (promoterRateRaw g - detractorRateRaw g) * 100 else 0

/-- The dictionary returned by `_calc_nps_metrics`. -/
structure Metrics where
  orderCount : ℕ     -- 订单数
  denom : ℚ          -- 有效分母
  detractor : ℤ      -- 诋毁数
  promoter : ℚ       -- 推荐分
  detractorRate : ℚ  -- 诋毁率
  promoterRate : ℚ   -- 推荐率
  nps : ℚ            -- NPS
deriving DecidableEq

/-- `NPSAnalyzer._calc_nps_metrics`. -/
def calcNpsMetrics (g : List Record) : Metrics :=
  { orderCount := g.length
    denom := round2 (effectiveDenominator g)
    detractor := pyTrunc (detractorSum g)
    promoter := round2 (promoterSum g)
    detractorRate := round2 (detractorRateRaw g * 100)
    promoterRate := round2 (promoterRateRaw g * 100)
    nps := round2 (npsRaw g) }

/-- `NPSAnalyzer._calculate_overall_nps`: sets `overall_nps` only when the
total denominator is positive (otherwise the field keeps its prior value). -/
def calculateOverallNps (st : NPSAnalyzer) : NPSAnalyzer :=
  let rows := dfRows st
  let totalDenominator := effectiveDenominator rows
  if 0 < totalDenominator then
    { st with overallNps :=
        ((promoterSum rows / totalDenominator) -
         (detractorSum rows / totalDenominator)) * 100 }
  else st

/-- `NPSAnalyzer.load_excel` on an already-parsed table: `self.df` is assigned
before the column check, and the failure branch reports the missing column
names.  The returned message is modelled as the list of missing names. -/
def loadExcel (st : NPSAnalyzer) (d : DataFrame) : (Bool × List String) × NPSAnalyzer :=
  let st1 := { st with df := some d }
  let missing := REQUIRED_COLUMNS.filter fun c => decide (c ∉ d.columns)
  if missing ≠ [] then ((false, missing), st1)
  else ((true, []), calculateOverallNps st1)

/-- `upload_file` in `app.py`: a fresh analyzer replaces the process-wide one
unconditionally, then `load_excel` runs on it. -/
def uploadFile (_g : Option NPSAnalyzer) (npsTarget : ℤ) (d : DataFrame) :
    (Bool × List String) × Option NPSAnalyzer :=
  let a := NPSAnalyzer.init npsTarget
  let r := loadExcel a d
  (r.1, some r.2)

/-- `set_target` in `app.py`: updates only the mutable `nps_target` field. -/
def setTarget (st : NPSAnalyzer) (t : ℤ) : NPSAnalyzer :=
  { st with npsTarget := t }

/-- One entry of the list returned by `get_overall_analysis`. -/
structure SupplierRow where
  supplierId : ℤ       -- 供应商ID
  supplierName : String -- 供应商名称
  metrics : Metrics
  belowTarget : Bool   -- 未达目标 ('是'/'否' in the source)
  contribution : ℚ     -- 对整体贡献
  negContribution : Bool -- 负贡献 ('是'/'否' in the source)
  rank : ℕ             -- 排名
deriving DecidableEq

/-- The groupby keys of `get_overall_analysis`, in pandas group order
(ascending `(成团供应商id, 成团供应商名称)`). -/
def supplierKeys (rows : List Record) : List (ℤ × String) :=
  sortBy keyLe ((rows.map fun r => (r.supplierId, r.supplierName)).dedup)

/-- The loop body of `get_overall_analysis` for one supplier group. -/
def supplierRowFor (rows : List Record) (overallNps : ℚ) (npsTarget : ℤ)
    (k : ℤ × String) : SupplierRow :=
  let m := calcNpsMetrics (rows.filter fun r => (r.supplierId, r.supplierName) = k)
  let totalDenom := (rows.map fun r => r.denomV5).sum
  let weight := if 0 < totalDenom then m.denom / totalDenom else 0
  let contribution := (m.nps - overallNps) * weight
  { supplierId := k.1
    supplierName := k.2
    metrics := m
    belowTarget := decide (m.nps < (npsTarget : ℚ))
    contribution := round4 contribution
    negContribution := decide (contribution < 0)
    rank := 0 }

/-- `for i, r in enumerate(results, 1): r['排名'] = i`. -/
def assignRanks : ℕ → List SupplierRow → List SupplierRow
  | _, [] => []
  | n, r :: l => { r with rank := n } :: assignRanks (n + 1) l

/-- The body of `get_overall_analysis` applied to the loaded rows. -/
def overallAnalysisRows (rows : List Record) (overallNps : ℚ) (npsTarget : ℤ) :
    List SupplierRow :=
  assignRanks 1
    (sortBy (byNpsDesc fun r => r.metrics.nps)
      ((supplierKeys rows).map (supplierRowFor rows overallNps npsTarget)))

/-- `NPSAnalyzer.get_overall_analysis`. -/
def getOverallAnalysis (st : NPSAnalyzer) : List SupplierRow :=
  match st.df with
  | none => []
  | some d => overallAnalysisRows d.rows st.overallNps st.npsTarget

/-- `NPSAnalyzer.get_supplier_list`. -/
def getSupplierList (st : NPSAnalyzer) : List (ℤ × String × ℕ) :=
  match st.df with
  | none => []
  | some d =>
      (supplierKeys d.rows).map fun k =>
        (k.1, k.2, (d.rows.filter fun r => (r.supplierId, r.supplierName) = k).length)

/-- The rows of the loaded dataset belonging to one supplier id. -/
def supplierSlice (st : NPSAnalyzer) (sid : ℤ) : List Record :=
  match st.df with
  | none => []
  | some d => d.rows.filter fun r => r.supplierId = sid

/-- The priority branch of `get_followup_management`. -/
def priorityOf (r : Record) : ℕ :=
  if r.denomV5 = 1 ∧ r.detractorV5 = 1 then 1
  else if r.denomV5 = 3/5 then 2
  else 3

/-- The 优先级说明 string of `get_followup_management` (Python float formatting
of the interpolated weight abstracted as the rational's repr). -/
def priorityDescOf (r : Record) : String :=
  if r.denomV5 = 1 ∧ r.detractorV5 = 1 then "分母1+诋毁"
  else if r.denomV5 = 3/5 then "分母0.6"
  else "分母" ++ toString r.denomV5

/-- The follow-up-type branch of `get_followup_management`. -/
def followupTypeOf (r : Record) : String :=
  if r.hasFeedback = 0 then "追好评"
  else if r.hasFeedback = 1 ∧ r.detractorV5 = 1 then "诋毁回正"
  else "无需追评"

/-- One entry of the list returned by `get_followup_management`. -/
structure FollowupRow where
  orderId : String      -- 订单号
  priority : ℕ          -- 优先级
  priorityDesc : String -- 优先级说明
  followupType : String -- 追评类型
  denomV5 : ℚ           -- 分母V5
  isDetractor : Bool    -- 是否诋毁 ('是'/'否' in the source)
  hasFeedback : Bool    -- 有用户反馈 ('是'/'否' in the source)
  score : ℚ             -- 推荐得分
deriving DecidableEq

/-- The loop body of `get_followup_management` for one row. -/
def followupRowFor (r : Record) : FollowupRow :=
  { orderId := r.orderId
    priority := priorityOf r
    priorityDesc := priorityDescOf r
    followupType := followupTypeOf r
    denomV5 := r.denomV5
    isDetractor := decide (r.detractorV5 = 1)
    hasFeedback := decide (r.hasFeedback = 1)
    score := r.promoterV5 }

/-- The sort key `(x['优先级'], -x['分母V5'])` of `get_followup_management`:
ascending priority, then descending denominator. -/
def followupLe (a b : FollowupRow) : Prop :=
  a.priority < b.priority ∨ (a.priority = b.priority ∧ b.denomV5 ≤ a.denomV5)

instance : DecidableRel followupLe := fun a b =>
  inferInstanceAs (Decidable (a.priority < b.priority ∨ (a.priority = b.priority ∧ b.denomV5 ≤ a.denomV5)))

/-- `NPSAnalyzer.get_followup_management`. -/
def getFollowupManagement (st : NPSAnalyzer) (sid : ℤ) : List FollowupRow :=
  match st.df with
  | none => []
  | some d =>
      let sdf := d.rows.filter fun r => r.supplierId = sid
      if sdf = [] then []
      else sortBy followupLe (sdf.map followupRowFor)

/-- One entry of the lists returned by `get_account_dimension` and
`get_follower_dimension` (the two loops are identical up to the key). -/
structure DimRow where
  keyId : ℤ
  keyName : String
  metrics : Metrics
  contribution : ℚ       -- 贡献度
  negContribution : Bool -- 负贡献 ('是'/'否' in the source)
deriving DecidableEq

/-- The loop body shared by `get_account_dimension` and
`get_follower_dimension` for one group. -/
def dimRowFor (sdf : List Record) (key : Record → ℤ × String) (k : ℤ × String) :
    DimRow :=
  let sm := calcNpsMetrics sdf
  let m := calcNpsMetrics (sdf.filter fun r => key r = k)
  let weight := if 0 < sm.denom then m.denom / sm.denom else 0
  let contribution := (m.nps - sm.nps) * weight
  { keyId := k.1
    keyName := k.2
    metrics := m
    contribution := round4 contribution
    negContribution := decide (m.nps < sm.nps) }

/-- The grouping, contribution and final NPS-descending sort shared by
`get_account_dimension` and `get_follower_dimension`. -/
def dimensionRows (key : Record → ℤ × String) (sdf : List Record) : List DimRow :=
  sortBy (byNpsDesc fun r => r.metrics.nps)
    ((sortBy keyLe ((sdf.map key).dedup)).map (dimRowFor sdf key))

/-- The groupby key of `get_account_dimension`. -/
def accountKey (r : Record) : ℤ × String := (r.accountUid, r.accountName)

/-- The groupby key of `get_follower_dimension`. -/
def followerKey (r : Record) : ℤ × String := (r.followerId, r.followerName)

/-- `NPSAnalyzer.get_account_dimension`. -/
def accountDimension (st : NPSAnalyzer) (sid : ℤ) : List DimRow :=
  match st.df with
  | none => []
  | some d =>
      let sdf := d.rows.filter fun r => r.supplierId = sid
      if sdf = [] then []
      else dimensionRows accountKey sdf

/-- `NPSAnalyzer.get_follower_dimension`. -/
def followerDimension (st : NPSAnalyzer) (sid : ℤ) : List DimRow :=
  match st.df with
  | none => []
  | some d =>
      let sdf := d.rows.filter fun r => r.supplierId = sid
      if sdf = [] then []
      else dimensionRows followerKey sdf

/-- The cumulative-NPS formula of `get_date_dimension`. -/
def cumulativeNps (cd : ℚ) (cdet : ℤ) (cp : ℚ) : ℚ :=
  if 0 < cd then ((cp / cd) - ((cdet : ℚ) / cd)) * 100 else 0

/-- One entry of the list returned by `get_date_dimension`. -/
structure DateRow where
  date : ℕ         -- 日期
  orderCount : ℕ   -- 订单数
  denom : ℚ        -- 有效分母
  detractor : ℤ    -- 诋毁数
  promoter : ℚ     -- 推荐分
  dayNps : ℚ       -- 当日NPS
  cumNps : ℚ       -- 累计NPS
  improved : String -- 是否进步
deriving DecidableEq

/-- The date loop of `get_date_dimension`: running totals of the rounded
per-date 有效分母 / 诋毁数 / 推荐分 are carried across dates. -/
def dateDimensionAux (sdf : List Record) :
    List ℕ → ℚ → ℤ → ℚ → Option ℚ → List DateRow
  | [], _, _, _, _ => []
  | d :: rest, cd, cdet, cp, prev =>
      let m := calcNpsMetrics (sdf.filter fun r => r.travelDate = d)
      let cd2 := cd + m.denom
      let cdet2 := cdet + m.detractor
      let cp2 := cp + m.promoter
      let cum := cumulativeNps cd2 cdet2 cp2
      let improved : String :=
        match prev with
        | none => "-"
        | some p => if p < cum then "是" else if cum < p then "否" else "持平"
      { date := d, orderCount := m.orderCount, denom := m.denom,
        detractor := m.detractor, promoter := m.promoter, dayNps := m.nps,
        cumNps := round2 cum, improved := improved }
        :: dateDimensionAux sdf rest cd2 cdet2 cp2 (some cum)

/-- `NPSAnalyzer.get_date_dimension`. -/
def dateDimension (st : NPSAnalyzer) (sid : ℤ) : List DateRow :=
  match st.df with
  | none => []
  | some d =>
      let sdf := d.rows.filter fun r => r.supplierId = sid
      if sdf = [] then []
      else
        dateDimensionAux sdf
          (sortBy (fun a b : ℕ => a ≤ b) ((sdf.map fun r => r.travelDate).dedup))
          0 0 0 none

/-- `get_overall` in `app.py`: the no-dataset guard, then the analysis, the
rounded overall NPS and the current target. -/
def apiOverall (a : NPSAnalyzer) : Option (List SupplierRow × ℚ × ℤ) :=
  match a.df with
  | none => none
  | some _ => some (getOverallAnalysis a, round2 a.overallNps, a.npsTarget)

section SortLemmas

variable {α : Type} (le : α → α → Prop) [DecidableRel le]

theorem insortBy_perm (a : α) (l : List α) : (insortBy le a l).Perm (a :: l) := by
  induction l with
  | nil => simp [insortBy]
  | cons b l ih =>
      by_cases h : le a b
      · simp [insortBy, h]
      · simp only [insortBy, if_neg h]
        exact ((ih.cons b).trans (List.Perm.swap a b l))

theorem sortBy_perm (l : List α) : (sortBy le l).Perm l := by
  induction l with
  | nil => simp [sortBy]
  | cons a l ih =>
      exact (insortBy_perm le a (sortBy le l)).trans (ih.cons a)

theorem mem_sortBy {a : α} {l : List α} : a ∈ sortBy le l ↔ a ∈ l :=
  (sortBy_perm le l).mem_iff

theorem insortBy_pairwise
    (htot : ∀ a b, le a b ∨ le b a) (htrans : ∀ a b c, le a b → le b c → le a c)
    (a : α) {l : List α} (hl : l.Pairwise le) :
    (insortBy le a l).Pairwise le := by
  induction l with
  | nil => simp [insortBy]
  | cons b l ih =>
      rcases List.pairwise_cons.mp hl with ⟨hb, hl2⟩
      by_cases h : le a b
      · rw [insortBy, if_pos h]
        refine List.pairwise_cons.mpr ⟨?_, hl⟩
        intro c hc
        rcases List.mem_cons.mp hc with rfl | hc
        · exact h
        · exact htrans a b c h (hb c hc)
      · rw [insortBy, if_neg h]
        refine List.pairwise_cons.mpr ⟨?_, ih hl2⟩
        intro c hc
        rcases (insortBy_perm le a l).mem_iff.mp hc with hc2
        rcases List.mem_cons.mp hc2 with rfl | hc3
        · exact (htot b c).resolve_right (by exact h)
        · exact hb c hc3

theorem sortBy_pairwise
    (htot : ∀ a b, le a b ∨ le b a) (htrans : ∀ a b c, le a b → le b c → le a c)
    (l : List α) : (sortBy le l).Pairwise le := by
  induction l with
  | nil => simp [sortBy]
  | cons a l ih => exact insortBy_pairwise le htot htrans a ih

/-- Stability of the insertion: an element inserted from the left precedes
every tie, so a pairwise tie-conditional relation on the original order is
preserved. -/
theorem insortBy_pairwise_tie (R : α → α → Prop)
    (a : α) {l : List α}
    (hl : l.Pairwise fun x y => le x y → le y x → R x y)
    (ha : ∀ b ∈ l, le a b → le b a → R a b) :
    (insortBy le a l).Pairwise fun x y => le x y → le y x → R x y := by
  induction l with
  | nil => simp [insortBy]
  | cons b l ih =>
      rcases List.pairwise_cons.mp hl with ⟨hb, hl2⟩
      by_cases h : le a b
      · rw [insortBy, if_pos h]
        refine List.pairwise_cons.mpr ⟨?_, hl⟩
        intro c hc
        exact ha c hc
      · rw [insortBy, if_neg h]
        refine List.pairwise_cons.mpr ⟨?_, ih hl2 fun c hc => ha c (List.mem_cons_of_mem b hc)⟩
        intro c hc h1 h2
        rcases (insortBy_perm le a l).mem_iff.mp hc with hc2
        rcases List.mem_cons.mp hc2 with rfl | hc3
        · exact absurd h2 h
        · exact hb c hc3 h1 h2

theorem sortBy_pairwise_tie (R : α → α → Prop) {l : List α}
    (hl : l.Pairwise fun x y => le x y → le y x → R x y) :
    (sortBy le l).Pairwise fun x y => le x y → le y x → R x y := by
  induction l with
  | nil => simp [sortBy]
  | cons a l ih =>
      rcases List.pairwise_cons.mp hl with ⟨ha, hl2⟩
      exact insortBy_pairwise_tie le R a (ih hl2)
        (fun b hb => ha b ((sortBy_perm le l).mem_iff.mp hb))

theorem insortBy_map {β : Type} (le2 : β → β → Prop) [DecidableRel le2]
    (f : α → β) (hf : ∀ a b, le a b ↔ le2 (f a) (f b)) (a : α) (l : List α) :
    (insortBy le a l).map f = insortBy le2 (f a) (l.map f) := by
  induction l with
  | nil => simp [insortBy]
  | cons b l ih =>
      by_cases h : le a b
      · simp [insortBy, h, (hf a b).mp h]
      · have h2 : ¬ le2 (f a) (f b) := fun hc => h ((hf a b).mpr hc)
        simp [insortBy, h, h2, ih]

theorem sortBy_map {β : Type} (le2 : β → β → Prop) [DecidableRel le2]
    (f : α → β) (hf : ∀ a b, le a b ↔ le2 (f a) (f b)) (l : List α) :
    (sortBy le l).map f = sortBy le2 (l.map f) := by
  induction l with
  | nil => simp [sortBy]
  | cons a l ih =>
      simp only [sortBy, List.map_cons]
      rw [insortBy_map le le2 f hf, ih]

theorem sortBy_ne_nil {l : List α} (h : l ≠ []) : sortBy le l ≠ [] := by
  intro hc
  have hl := (sortBy_perm le l).length_eq
  rw [hc] at hl
  exact h (List.length_eq_zero.mp hl.symm)

end SortLemmas

section RankLemmas

theorem assignRanks_map_rank (n : ℕ) (l : List SupplierRow) :
    (assignRanks n l).map (fun r => r.rank) = List.range' n l.length := by
  induction l generalizing n with
  | nil => simp [assignRanks]
  | cons r l ih => simp [assignRanks, List.range', ih]

theorem assignRanks_map {β : Type} (f : SupplierRow → β)
    (hf : ∀ r i, f { r with rank := i } = f r) (n : ℕ) (l : List SupplierRow) :
    (assignRanks n l).map f = l.map f := by
  induction l generalizing n with
  | nil => simp [assignRanks]
  | cons r l ih => simp [assignRanks, hf, ih]

theorem mem_assignRanks {row : SupplierRow} {n : ℕ} {l : List SupplierRow}
    (h : row ∈ assignRanks n l) : ∃ r ∈ l, ∃ i, row = { r with rank := i } := by
  induction l generalizing n with
  | nil => simp [assignRanks] at h
  | cons r l ih =>
      rcases List.mem_cons.mp h with rfl | h2
      · exact ⟨r, List.mem_cons_self r l, n, rfl⟩
      · rcases ih h2 with ⟨s, hs, i, hi⟩
        exact ⟨s, List.mem_cons_of_mem r hs, i, hi⟩

theorem assignRanks_strip (n : ℕ) (l : List SupplierRow) :
    (assignRanks n l).map (fun r => { r with belowTarget := false }) =
      assignRanks n (l.map fun r => { r with belowTarget := false }) := by
  induction l generalizing n with
  | nil => simp [assignRanks]
  | cons r l ih => simp [assignRanks, ih]

end RankLemmas

section SumLemmas

theorem sum_map_filter_split {α : Type} (p : α → Prop) [DecidablePred p]
    (f : α → ℚ) (l : List α) :
    ((l.filter fun a => decide (p a)).map f).sum +
      ((l.filter fun a => decide (¬ p a)).map f).sum = (l.map f).sum := by
  induction l with
  | nil => simp
  | cons a l ih =>
      by_cases h : p a
      · rw [List.filter_cons, List.filter_cons, if_pos (by simpa using h),
          if_neg (by simpa using h)]
        simp only [List.map_cons, List.sum_cons]
        rw [add_assoc, ih]
      · rw [List.filter_cons, List.filter_cons, if_neg (by simpa using h),
          if_pos (by simpa using h)]
        simp only [List.map_cons, List.sum_cons]
        rw [add_left_comm, ih]

/-- Summing a function group-by-group over a family of groups that partitions
`l` by date key gives the sum over `l`. -/
theorem sum_map_filter_partition (f : Record → ℚ) (l : List Record)
    (ds : List ℕ) (hnd : ds.Nodup) (hall : ∀ r ∈ l, r.travelDate ∈ ds) :
    (ds.map fun dd => ((l.filter fun r => r.travelDate = dd).map f).sum).sum
      = (l.map f).sum := by
  induction ds generalizing l with
  | nil =>
      have : l = [] := by
        rw [List.eq_nil_iff_forall_not_mem]
        intro r hr
        exact absurd (hall r hr) (List.not_mem_nil _)
      simp [this]
  | cons dd ds ih =>
      rcases List.pairwise_cons.mp hnd with ⟨hdd, hnd2⟩
      have hsplit := sum_map_filter_split (fun r => r.travelDate = dd) f l
      have hrest : ∀ d2 ∈ ds,
          ((l.filter fun r => r.travelDate = d2).map f).sum
            = (((l.filter fun r => decide (¬ r.travelDate = dd)).filter
                fun r => r.travelDate = d2).map f).sum := by
        intro d2 hd2
        have hne : d2 ≠ dd := fun hc => (hdd d2 hd2) hc.symm
        have hfl : ((l.filter fun r => decide (¬ r.travelDate = dd)).filter
              fun r => r.travelDate = d2) = l.filter fun r => r.travelDate = d2 := by
          rw [List.filter_filter]
          apply List.filter_congr
          intro r _
          by_cases hr : r.travelDate = d2
          · simp [hr, hne]
          · simp [hr]
        rw [hfl]
      have hall2 : ∀ r ∈ l.filter fun r => decide (¬ r.travelDate = dd),
          r.travelDate ∈ ds := by
        intro r hr
        rcases List.mem_filter.mp hr with ⟨hrl, hrd⟩
        have hrd2 : r.travelDate ≠ dd := by simpa using hrd
        rcases List.mem_cons.mp (hall r hrl) with hc | hc
        · exact absurd hc hrd2
        · exact hc
      rw [List.map_cons, List.sum_cons, List.map_congr_left hrest, ih _ hnd2 hall2]
      exact hsplit

end SumLemmas

section RoundLemmas

theorem pyRoundNearest_bounds (q : ℚ) :
    ⌊q⌋ ≤ pyRoundNearest q ∧ pyRoundNearest q ≤ ⌈q⌉ := by
  unfold pyRoundNearest
  by_cases h1 : q - ⌊q⌋ < 1/2
  · simp only [if_pos h1]
    exact ⟨le_refl _, Int.floor_le_ceil q⟩
  · have hpos : (⌊q⌋ : ℚ) < q := by
      have : (1:ℚ)/2 ≤ q - ⌊q⌋ := le_of_not_lt h1
      linarith
    have hceil : ⌊q⌋ + 1 ≤ ⌈q⌉ := by
      have := Int.lt_ceil.mpr hpos
      omega
    by_cases h2 : 1/2 < q - ⌊q⌋
    · simp only [if_neg h1, if_pos h2]
      exact ⟨by omega, hceil⟩
    · by_cases h3 : ⌊q⌋ % 2 = 0
      · simp only [if_neg h1, if_neg h2, if_pos h3]
        exact ⟨le_refl _, Int.floor_le_ceil q⟩
      · simp only [if_neg h1, if_neg h2, if_neg h3]
        exact ⟨by omega, hceil⟩

theorem pyRoundNearest_intCast (n : ℤ) : pyRoundNearest (n : ℚ) = n := by
  unfold pyRoundNearest
  simp [Int.floor_intCast]

theorem round2_intCast (n : ℤ) : round2 (n : ℚ) = n := by
  unfold round2
  have h : ((n : ℚ)) * 100 = ((n * 100 : ℤ) : ℚ) := by push_cast; ring
  rw [h, pyRoundNearest_intCast]
  push_cast
  ring

theorem round2_zero : round2 0 = 0 := by
  simpa using round2_intCast 0

theorem round2_bounds {q : ℚ} (h0 : 0 ≤ q) (h1 : q ≤ 100) :
    0 ≤ round2 q ∧ round2 q ≤ 100 := by
  unfold round2
  rcases pyRoundNearest_bounds (q * 100) with ⟨hlo, hhi⟩
  have hfl : (0:ℤ) ≤ ⌊q * 100⌋ := Int.le_floor.mpr (by positivity)
  have hcl : ⌈q * 100⌉ ≤ 10000 := Int.ceil_le.mpr (by push_cast; linarith)
  constructor
  · have : (0:ℚ) ≤ (pyRoundNearest (q * 100) : ℚ) := by exact_mod_cast le_trans hfl hlo
    positivity
  · have : (pyRoundNearest (q * 100) : ℚ) ≤ 10000 := by exact_mod_cast le_trans hhi hcl
    linarith

theorem pyTrunc_intCast (n : ℤ) : pyTrunc (n : ℚ) = n := by
  unfold pyTrunc
  by_cases h : (0:ℚ) ≤ (n : ℚ)
  · simp [h, Int.floor_intCast]
  · rw [if_neg h]
    have h2 : -(n:ℚ) = ((-n : ℤ) : ℚ) := by push_cast; ring
    rw [h2, Int.floor_intCast]
    ring

end RoundLemmas

section RoundEval

theorem pyRoundNearest_eq_low {q : ℚ} {f : ℤ} (h1 : (f:ℚ) ≤ q) (h2 : q - f < 1/2) :
    pyRoundNearest q = f := by
  have hf : ⌊q⌋ = f := by
    rw [Int.floor_eq_iff]
    exact ⟨h1, by linarith⟩
  unfold pyRoundNearest
  rw [hf, if_pos h2]

theorem pyRoundNearest_eq_high {q : ℚ} {f : ℤ} (h1 : (f:ℚ) ≤ q) (h2 : 1/2 < q - f)
    (h3 : q < f + 1) : pyRoundNearest q = f + 1 := by
  have hf : ⌊q⌋ = f := by
    rw [Int.floor_eq_iff]
    exact ⟨h1, by linarith⟩
  unfold pyRoundNearest
  rw [hf, if_neg (by linarith), if_pos h2]

theorem round2_eval_low {q : ℚ} {f : ℤ} (h1 : (f:ℚ) ≤ q * 100) (h2 : q * 100 - f < 1/2) :
    round2 q = f / 100 := by
  unfold round2
  rw [pyRoundNearest_eq_low h1 h2]

theorem round2_eval_high {q : ℚ} {f : ℤ} (h1 : (f:ℚ) ≤ q * 100) (h2 : 1/2 < q * 100 - f)
    (h3 : q * 100 < f + 1) : round2 q = ((f : ℚ) + 1) / 100 := by
  unfold round2
  rw [pyRoundNearest_eq_high h1 h2 h3]
  push_cast
  ring

theorem round4_eval_low {q : ℚ} {f : ℤ} (h1 : (f:ℚ) ≤ q * 10000)
    (h2 : q * 10000 - f < 1/2) : round4 q = f / 10000 := by
  unfold round4
  rw [pyRoundNearest_eq_low h1 h2]

theorem round2_one : round2 1 = 1 := by
  have h := @round2_eval_low 1 100 (by norm_num) (by norm_num)
  norm_num at h
  exact h

theorem round2_one_hundred : round2 100 = 100 := by
  have h := @round2_eval_low 100 10000 (by norm_num) (by norm_num)
  norm_num at h
  exact h

theorem round4_zero : round4 0 = 0 := by
  have h := @round4_eval_low 0 0 (by norm_num) (by norm_num)
  norm_num at h
  exact h

theorem pyTrunc_zero : pyTrunc 0 = 0 := by
  have h := pyTrunc_intCast 0
  norm_num at h
  exact h

theorem pyTrunc_one : pyTrunc 1 = 1 := by
  have h := pyTrunc_intCast 1
  norm_num at h
  exact h

end RoundEval

section SampleData

/-- The worked example of the spec: supplier 1 has two weight-1 rows (one
detractor with score 0, one promoter with score 1), supplier 2 has one
weight-1 promoter row. -/
def sampleRows : List Record :=
  [{ orderId := "o1", supplierId := 1, supplierName := "甲", accountUid := 11,
     accountName := "a1", travelDate := 1, followerId := 21, followerName := "f1",
     denomV5 := 1, detractorV5 := 1, promoterV5 := 0, hasFeedback := 1 },
   { orderId := "o2", supplierId := 1, supplierName := "甲", accountUid := 11,
     accountName := "a1", travelDate := 2, followerId := 21, followerName := "f1",
     denomV5 := 1, detractorV5 := 0, promoterV5 := 1, hasFeedback := 0 },
   { orderId := "o3", supplierId := 2, supplierName := "乙", accountUid := 12,
     accountName := "a2", travelDate := 1, followerId := 22, followerName := "f2",
     denomV5 := 1, detractorV5 := 0, promoterV5 := 1, hasFeedback := 1 }]

def sampleDf : DataFrame := { columns := REQUIRED_COLUMNS, rows := sampleRows }

/-- An analyzer state holding the sample dataset. -/
def sampleState : NPSAnalyzer :=
  { npsTarget := 60, df := some sampleDf, overallNps := 100/3 }

/-- A parsed table missing every required column except 订单号. -/
def invalidDf : DataFrame := { columns := ["订单号"], rows := [] }

end SampleData

/-- C7: the order classifier assigns priorities by first match (priority 1 iff
weight 1 and detractor flag 1; otherwise priority 2 iff weight 0.6; otherwise
priority 3) and, independently, the follow-up type is 追好评 (solicit positive
review) iff has-user-feedback is 0, else 诋毁回正 (convert detractor) iff
has-user-feedback is 1 and the detractor flag is 1, else 无需追评 (no
follow-up needed). -/
theorem c7_order_classifier (r : Record) :
    (priorityOf r = 1 ↔ r.denomV5 = 1 ∧ r.detractorV5 = 1)
  ∧ (priorityOf r = 2 ↔ ¬ (r.denomV5 = 1 ∧ r.detractorV5 = 1) ∧ r.denomV5 = 3/5)
  ∧ (priorityOf r = 3 ↔ ¬ (r.denomV5 = 1 ∧ r.detractorV5 = 1) ∧ ¬ r.denomV5 = 3/5)
  ∧ (followupTypeOf r = "追好评" ↔ r.hasFeedback = 0)
  ∧ (followupTypeOf r = "诋毁回正" ↔
      ¬ r.hasFeedback = 0 ∧ (r.hasFeedback = 1 ∧ r.detractorV5 = 1))
  ∧ (followupTypeOf r = "无需追评" ↔
      ¬ r.hasFeedback = 0 ∧ ¬ (r.hasFeedback = 1 ∧ r.detractorV5 = 1)) := by
  unfold priorityOf followupTypeOf
  split_ifs with h1 h2 h3 h4 <;> simp_all

/-- C9: a scoped dimension query for a supplier id with zero matching rows in
the loaded dataset returns the empty list, not an error. -/
theorem c9_empty_supplier (st : NPSAnalyzer) (sid : ℤ) (d : DataFrame)
    (hdf : st.df = some d)
    (hempty : d.rows.filter (fun r => r.supplierId = sid) = []) :
    getFollowupManagement st sid = [] ∧ dateDimension st sid = []
  ∧ accountDimension st sid = [] ∧ followerDimension st sid = [] := by
  refine ⟨?_, ?_, ?_, ?_⟩ <;>
    simp [getFollowupManagement, dateDimension, accountDimension, followerDimension,
      hdf, hempty]

theorem c9_witness :
    (sampleState.df = some sampleDf
      ∧ sampleDf.rows.filter (fun r => r.supplierId = 99) = [])
  ∧ (getFollowupManagement sampleState 99 = [] ∧ dateDimension sampleState 99 = []
      ∧ accountDimension sampleState 99 = [] ∧ followerDimension sampleState 99 = []) :=
  ⟨⟨rfl, by decide⟩, c9_empty_supplier sampleState 99 sampleDf rfl (by decide)⟩

/-- C6: a subset with zero total denominator weight gets detractor rate,
promoter rate and NPS all equal to 0 from the metric calculator, and a whole
dataset with zero total denominator loads successfully with overall baseline
0. -/
theorem c6_zero_denominator (g : List Record) (hg : effectiveDenominator g = 0)
    (t : ℤ) (d : DataFrame)
    (hcols : ∀ c ∈ REQUIRED_COLUMNS, c ∈ d.columns)
    (hzero : effectiveDenominator d.rows = 0) :
    (calcNpsMetrics g).detractorRate = 0 ∧ (calcNpsMetrics g).promoterRate = 0
  ∧ (calcNpsMetrics g).nps = 0
  ∧ (loadExcel (NPSAnalyzer.init t) d).1.1 = true
  ∧ (loadExcel (NPSAnalyzer.init t) d).2.overallNps = 0 := by
  have hnot : ¬ 0 < effectiveDenominator g := by rw [hg]; exact lt_irrefl 0
  have h1 : detractorRateRaw g = 0 := by rw [detractorRateRaw, if_neg hnot]
  have h2 : promoterRateRaw g = 0 := by rw [promoterRateRaw, if_neg hnot]
  have h3 : npsRaw g = 0 := by rw [npsRaw, if_neg hnot]
  have hmiss : (REQUIRED_COLUMNS.filter fun c => decide (c ∉ d.columns)) = [] := by
    rw [List.filter_eq_nil_iff]
    intro c hc
    simpa using hcols c hc
  have hload : loadExcel (NPSAnalyzer.init t) d
      = ((true, []), calculateOverallNps { NPSAnalyzer.init t with df := some d }) := by
    simp only [loadExcel]
    rw [if_neg (fun hh => hh hmiss)]
  have hcalc : calculateOverallNps { NPSAnalyzer.init t with df := some d }
      = { NPSAnalyzer.init t with df := some d } := by
    rw [calculateOverallNps]
    have : dfRows { NPSAnalyzer.init t with df := some d } = d.rows := rfl
    rw [this, hzero]
    simp
  refine ⟨?_, ?_, ?_, ?_, ?_⟩
  · show round2 (detractorRateRaw g * 100) = 0
    rw [h1, zero_mul, round2_zero]
  · show round2 (promoterRateRaw g * 100) = 0
    rw [h2, zero_mul, round2_zero]
  · show round2 (npsRaw g) = 0
    rw [h3, round2_zero]
  · rw [hload]
  · rw [hload, hcalc]
    rfl

def c6Row : Record :=
  { orderId := "z1", supplierId := 3, supplierName := "丁", accountUid := 13,
    accountName := "a3", travelDate := 1, followerId := 23, followerName := "f3",
    denomV5 := 0, detractorV5 := 1, promoterV5 := 1, hasFeedback := 0 }

def c6Df : DataFrame := { columns := REQUIRED_COLUMNS, rows := [c6Row] }

theorem c6_witness :
    (effectiveDenominator [c6Row] = 0
      ∧ (∀ c ∈ REQUIRED_COLUMNS, c ∈ c6Df.columns)
      ∧ effectiveDenominator c6Df.rows = 0)
  ∧ ((calcNpsMetrics [c6Row]).detractorRate = 0
      ∧ (calcNpsMetrics [c6Row]).promoterRate = 0
      ∧ (calcNpsMetrics [c6Row]).nps = 0
      ∧ (loadExcel (NPSAnalyzer.init 60) c6Df).1.1 = true
      ∧ (loadExcel (NPSAnalyzer.init 60) c6Df).2.overallNps = 0) :=
  ⟨⟨by norm_num [effectiveDenominator, c6Row], by decide,
      by norm_num [effectiveDenominator, c6Df, c6Row]⟩,
    c6_zero_denominator [c6Row] (by norm_num [effectiveDenominator, c6Row]) 60 c6Df
      (by decide) (by norm_num [effectiveDenominator, c6Df, c6Row])⟩

/-- C8: when a load fails because required columns are missing, the analyzer's
dataframe field holds the newly read invalid table rather than None, so a
subsequent overall query passes the no-dataset guard and is evaluated against
that invalid table instead of returning the precondition-not-met error. -/
theorem c8_failed_load_keeps_invalid_df (st : NPSAnalyzer) (d : DataFrame)
    (hmiss : ∃ c ∈ REQUIRED_COLUMNS, c ∉ d.columns) :
    (loadExcel st d).1.1 = false
  ∧ (loadExcel st d).2.df = some d
  ∧ ¬ (loadExcel st d).2.df = none
  ∧ getOverallAnalysis (loadExcel st d).2
      = overallAnalysisRows d.rows (loadExcel st d).2.overallNps (loadExcel st d).2.npsTarget
  ∧ ¬ apiOverall (loadExcel st d).2 = none := by
  have hne : (REQUIRED_COLUMNS.filter fun c => decide (c ∉ d.columns)) ≠ [] := by
    rcases hmiss with ⟨c, hc1, hc2⟩
    intro h0
    have := List.filter_eq_nil_iff.mp h0 c hc1
    simp [hc2] at this
  have hload : loadExcel st d
      = ((false, REQUIRED_COLUMNS.filter fun c => decide (c ∉ d.columns)),
          { st with df := some d }) := by
    simp only [loadExcel]
    rw [if_pos hne]
  rw [hload]
  exact ⟨rfl, rfl, by simp, rfl, by simp [apiOverall]⟩

theorem c8_witness :
    (∃ c ∈ REQUIRED_COLUMNS, c ∉ invalidDf.columns)
  ∧ ((loadExcel (NPSAnalyzer.init 60) invalidDf).1.1 = false
      ∧ (loadExcel (NPSAnalyzer.init 60) invalidDf).2.df = some invalidDf
      ∧ ¬ (loadExcel (NPSAnalyzer.init 60) invalidDf).2.df = none
      ∧ getOverallAnalysis (loadExcel (NPSAnalyzer.init 60) invalidDf).2
          = overallAnalysisRows invalidDf.rows
              (loadExcel (NPSAnalyzer.init 60) invalidDf).2.overallNps
              (loadExcel (NPSAnalyzer.init 60) invalidDf).2.npsTarget
      ∧ ¬ apiOverall (loadExcel (NPSAnalyzer.init 60) invalidDf).2 = none) :=
  ⟨⟨"成团供应商id", by decide, by decide⟩,
    c8_failed_load_keeps_invalid_df (NPSAnalyzer.init 60) invalidDf
      ⟨"成团供应商id", by decide, by decide⟩⟩

/-- C1 (code bug): a load that fails the required-column check does NOT leave
the analyzer's loaded-dataset state as it was — `load_excel` assigns
`self.df` before validating, and `upload_file` replaces the global analyzer
before loading, so after the failed load the installed dataframe is the new
invalid one. -/
theorem c1_failed_load_mutates_state :
    (loadExcel sampleState invalidDf).1.1 = false
  ∧ (loadExcel sampleState invalidDf).1.2
      = ["成团供应商id", "成团供应商名称", "成团子账号uid", "成团子账号名称",
         "成团出行日期", "跟进人id", "跟进人姓名", "分母V5", "拟合诋毁V5",
         "拟合推荐V5", "有用户反馈"]
  ∧ (loadExcel sampleState invalidDf).2.df = some invalidDf
  ∧ ¬ (loadExcel sampleState invalidDf).2.df = sampleState.df
  ∧ ¬ (uploadFile (some sampleState) 60 invalidDf).2 = some sampleState := by
  exact ⟨by decide, by decide, by decide, by decide, by decide⟩

/-- C10: setting the NPS target changes only the mutable threshold — every
query's numeric output is unchanged for any two target values; only the
below-target flag of the overall analysis may differ. -/
theorem c10_set_target_frame (st : NPSAnalyzer) (t : ℤ) (sid : ℤ) :
    (getOverallAnalysis (setTarget st t)).map (fun r => { r with belowTarget := false })
      = (getOverallAnalysis st).map (fun r => { r with belowTarget := false })
  ∧ getFollowupManagement (setTarget st t) sid = getFollowupManagement st sid
  ∧ dateDimension (setTarget st t) sid = dateDimension st sid
  ∧ accountDimension (setTarget st t) sid = accountDimension st sid
  ∧ followerDimension (setTarget st t) sid = followerDimension st sid
  ∧ getSupplierList (setTarget st t) = getSupplierList st
  ∧ (setTarget st t).overallNps = st.overallNps
  ∧ (setTarget st t).df = st.df
  ∧ (setTarget st t).npsTarget = t := by
  refine ⟨?_, rfl, rfl, rfl, rfl, rfl, rfl, rfl, rfl⟩
  show (match st.df with
        | none => []
        | some d => overallAnalysisRows d.rows st.overallNps t).map
          (fun (r : SupplierRow) => { r with belowTarget := false })
      = (match st.df with
        | none => []
        | some d => overallAnalysisRows d.rows st.overallNps st.npsTarget).map
          (fun (r : SupplierRow) => { r with belowTarget := false })
  cases st.df with
  | none => rfl
  | some d =>
      show (overallAnalysisRows d.rows st.overallNps t).map
            (fun (r : SupplierRow) => { r with belowTarget := false })
          = (overallAnalysisRows d.rows st.overallNps st.npsTarget).map
            (fun (r : SupplierRow) => { r with belowTarget := false })
      unfold overallAnalysisRows
      rw [assignRanks_strip, assignRanks_strip]
      congr 1
      rw [sortBy_map (byNpsDesc fun (r : SupplierRow) => r.metrics.nps)
            (byNpsDesc fun (r : SupplierRow) => r.metrics.nps)
            (fun (r : SupplierRow) => { r with belowTarget := false })
            (fun a b => Iff.rfl),
          sortBy_map (byNpsDesc fun (r : SupplierRow) => r.metrics.nps)
            (byNpsDesc fun (r : SupplierRow) => r.metrics.nps)
            (fun (r : SupplierRow) => { r with belowTarget := false })
            (fun a b => Iff.rfl),
          List.map_map, List.map_map]
      exact congrArg _ (List.map_congr_left fun k hk => rfl)

/-- A single record with denominator weight 0.6 and detractor flag 1: its
detractor count exceeds its denominator, so the reported detractor rate is
1/0.6 × 100 ≈ 166.67. -/
def c3Record : Record :=
  { orderId := "c3", supplierId := 7, supplierName := "丙", accountUid := 14,
    accountName := "a4", travelDate := 1, followerId := 24, followerName := "f4",
    denomV5 := 3/5, detractorV5 := 1, promoterV5 := 0, hasFeedback := 0 }

/-- C3 (counterexample): on the non-empty subset `[c3Record]`, whose promoter
score is in [0,1] and whose detractor flag is in 0,1, the metric
calculator reports a detractor rate of 166.67, outside [0,100] — the claim's
bound fails because a detractor row may carry weight below 1. -/
theorem c3_counterexample :
    ([c3Record] ≠ ([] : List Record))
  ∧ (0 ≤ c3Record.promoterV5 ∧ c3Record.promoterV5 ≤ 1)
  ∧ (c3Record.detractorV5 = 0 ∨ c3Record.detractorV5 = 1)
  ∧ (calcNpsMetrics [c3Record]).detractorRate = 16667/100
  ∧ ¬ (calcNpsMetrics [c3Record]).detractorRate ≤ 100 := by
  have he : effectiveDenominator [c3Record] = 3/5 := by
    norm_num [effectiveDenominator, c3Record]
  have hd : detractorSum [c3Record] = 1 := by
    norm_num [detractorSum, c3Record]
  have hdr : detractorRateRaw [c3Record] = 5/3 := by
    rw [detractorRateRaw, he, hd]
    norm_num
  have hfield : (calcNpsMetrics [c3Record]).detractorRate = 16667/100 := by
    show round2 (detractorRateRaw [c3Record] * 100) = 16667/100
    rw [hdr]
    have h := @round2_eval_high (5/3 * 100) 16666 (by norm_num) (by norm_num) (by norm_num)
    rw [h]
    norm_num
  exact ⟨by decide, by norm_num [c3Record], by norm_num [c3Record], hfield,
    by rw [hfield]; norm_num⟩

/-- C3 (amended): for every non-empty subset with non-negative weights,
promoter scores in [0,1], detractor flags in 0,1 AND each flag bounded by
its row's weight, the raw nps equals (promoter rate − detractor rate) × 100
exactly and both reported rates lie in [0,100].  (The last hypothesis is what
the counterexample forces: without it the detractor rate can exceed 100.) -/
theorem c3_metric_bounds (g : List Record) (hne : g ≠ [])
    (hw : ∀ r ∈ g, 0 ≤ r.denomV5)
    (hp : ∀ r ∈ g, 0 ≤ r.promoterV5 ∧ r.promoterV5 ≤ 1)
    (hd : ∀ r ∈ g, r.detractorV5 = 0 ∨ r.detractorV5 = 1)
    (hdw : ∀ r ∈ g, r.detractorV5 ≤ r.denomV5) :
    npsRaw g = (promoterRateRaw g - detractorRateRaw g) * 100
  ∧ (0 ≤ (calcNpsMetrics g).promoterRate ∧ (calcNpsMetrics g).promoterRate ≤ 100)
  ∧ (0 ≤ (calcNpsMetrics g).detractorRate ∧ (calcNpsMetrics g).detractorRate ≤ 100) := by
  by_cases hD : 0 < effectiveDenominator g
  · have hP0 : 0 ≤ promoterSum g := by
      rw [promoterSum]
      apply List.sum_nonneg
      intro x hx
      rcases List.mem_map.mp hx with ⟨r, hr, rfl⟩
      exact mul_nonneg (hp r hr).1 (hw r hr)
    have hPD : promoterSum g ≤ effectiveDenominator g := by
      rw [promoterSum, effectiveDenominator]
      apply List.sum_le_sum
      intro r hr
      exact mul_le_of_le_one_left (hw r hr) (hp r hr).2
    have hd0 : 0 ≤ detractorSum g := by
      rw [detractorSum]
      apply List.sum_nonneg
      intro x hx
      rcases List.mem_map.mp hx with ⟨r, hr, rfl⟩
      rcases hd r hr with h | h <;> rw [h] <;> norm_num
    have hdD : detractorSum g ≤ effectiveDenominator g := by
      rw [detractorSum, effectiveDenominator]
      exact List.sum_le_sum fun r hr => hdw r hr
    have hpr : promoterRateRaw g = promoterSum g / effectiveDenominator g := by
      rw [promoterRateRaw, if_pos hD]
    have hdr : detractorRateRaw g = detractorSum g / effectiveDenominator g := by
      rw [detractorRateRaw, if_pos hD]
    have hprb : 0 ≤ promoterRateRaw g * 100 ∧ promoterRateRaw g * 100 ≤ 100 := by
      rw [hpr]
      constructor
      · exact mul_nonneg (div_nonneg hP0 hD.le) (by norm_num)
      · have h1 : promoterSum g / effectiveDenominator g ≤ 1 := (div_le_one hD).mpr hPD
        linarith
    have hdrb : 0 ≤ detractorRateRaw g * 100 ∧ detractorRateRaw g * 100 ≤ 100 := by
      rw [hdr]
      constructor
      · exact mul_nonneg (div_nonneg hd0 hD.le) (by norm_num)
      · have h1 : detractorSum g / effectiveDenominator g ≤ 1 := (div_le_one hD).mpr hdD
        linarith
    exact ⟨by rw [npsRaw, if_pos hD], round2_bounds hprb.1 hprb.2,
      round2_bounds hdrb.1 hdrb.2⟩
  · have h1 : detractorRateRaw g = 0 := by rw [detractorRateRaw, if_neg hD]
    have h2 : promoterRateRaw g = 0 := by rw [promoterRateRaw, if_neg hD]
    have h3 : npsRaw g = 0 := by rw [npsRaw, if_neg hD]
    refine ⟨by rw [h1, h2, h3]; ring, ?_, ?_⟩
    · show 0 ≤ round2 (promoterRateRaw g * 100) ∧ round2 (promoterRateRaw g * 100) ≤ 100
      rw [h2, zero_mul, round2_zero]
      norm_num
    · show 0 ≤ round2 (detractorRateRaw g * 100) ∧ round2 (detractorRateRaw g * 100) ≤ 100
      rw [h1, zero_mul, round2_zero]
      norm_num

theorem c3_witness :
    (sampleRows ≠ []
      ∧ (∀ r ∈ sampleRows, 0 ≤ r.denomV5)
      ∧ (∀ r ∈ sampleRows, 0 ≤ r.promoterV5 ∧ r.promoterV5 ≤ 1)
      ∧ (∀ r ∈ sampleRows, r.detractorV5 = 0 ∨ r.detractorV5 = 1)
      ∧ (∀ r ∈ sampleRows, r.detractorV5 ≤ r.denomV5))
  ∧ (npsRaw sampleRows = (promoterRateRaw sampleRows - detractorRateRaw sampleRows) * 100
      ∧ (0 ≤ (calcNpsMetrics sampleRows).promoterRate
          ∧ (calcNpsMetrics sampleRows).promoterRate ≤ 100)
      ∧ (0 ≤ (calcNpsMetrics sampleRows).detractorRate
          ∧ (calcNpsMetrics sampleRows).detractorRate ≤ 100)) :=
  ⟨⟨by decide, by decide, by decide, by decide, by decide⟩,
    c3_metric_bounds sampleRows (by decide) (by decide) (by decide) (by decide) (by decide)⟩

section ClaimTwo

/-- Supplier 1, sub-account 11: one weight-1 promoter row. -/
def c2RecA : Record :=
  { orderId := "a", supplierId := 1, supplierName := "甲", accountUid := 11,
    accountName := "u1", travelDate := 1, followerId := 31, followerName := "v1",
    denomV5 := 1, detractorV5 := 0, promoterV5 := 1, hasFeedback := 0 }

/-- Supplier 1, sub-account 12: one weight-0 row, so its group has zero
denominator, NPS 0 and weight 0. -/
def c2RecB : Record :=
  { orderId := "b", supplierId := 1, supplierName := "甲", accountUid := 12,
    accountName := "u2", travelDate := 1, followerId := 32, followerName := "v2",
    denomV5 := 0, detractorV5 := 0, promoterV5 := 0, hasFeedback := 0 }

def c2Rows : List Record := [c2RecA, c2RecB]

def c2Df : DataFrame := { columns := REQUIRED_COLUMNS, rows := c2Rows }

def c2State : NPSAnalyzer := { npsTarget := 60, df := some c2Df, overallNps := 100 }

def c2MetricsA : Metrics :=
  { orderCount := 1, denom := 1, detractor := 0, promoter := 1,
    detractorRate := 0, promoterRate := 100, nps := 100 }

def c2MetricsB : Metrics :=
  { orderCount := 1, denom := 0, detractor := 0, promoter := 0,
    detractorRate := 0, promoterRate := 0, nps := 0 }

def c2MetricsAll : Metrics :=
  { orderCount := 2, denom := 1, detractor := 0, promoter := 1,
    detractorRate := 0, promoterRate := 100, nps := 100 }

def c2Row1 : DimRow :=
  { keyId := 11, keyName := "u1", metrics := c2MetricsA,
    contribution := 0, negContribution := false }

def c2Row2 : DimRow :=
  { keyId := 12, keyName := "u2", metrics := c2MetricsB,
    contribution := 0, negContribution := true }

theorem c2_metricsA_eval : calcNpsMetrics [c2RecA] = c2MetricsA := by
  have he : effectiveDenominator [c2RecA] = 1 := by
    norm_num [effectiveDenominator, c2RecA]
  have hds : detractorSum [c2RecA] = 0 := by norm_num [detractorSum, c2RecA]
  have hps : promoterSum [c2RecA] = 1 := by norm_num [promoterSum, c2RecA]
  have hdr : detractorRateRaw [c2RecA] = 0 := by
    rw [detractorRateRaw, he, hds]
    norm_num
  have hpr : promoterRateRaw [c2RecA] = 1 := by
    rw [promoterRateRaw, he, hps]
    norm_num
  have hnps : npsRaw [c2RecA] = 100 := by
    rw [npsRaw, he, hpr, hdr]
    norm_num
  rw [calcNpsMetrics, he, hds, hps, hdr, hpr, hnps]
  norm_num [c2MetricsA, round2_zero, round2_one, round2_one_hundred, pyTrunc_zero]

theorem c2_metricsB_eval : calcNpsMetrics [c2RecB] = c2MetricsB := by
  have he : effectiveDenominator [c2RecB] = 0 := by
    norm_num [effectiveDenominator, c2RecB]
  have hds : detractorSum [c2RecB] = 0 := by norm_num [detractorSum, c2RecB]
  have hps : promoterSum [c2RecB] = 0 := by norm_num [promoterSum, c2RecB]
  have hnot : ¬ 0 < effectiveDenominator [c2RecB] := by rw [he]; norm_num
  have hdr : detractorRateRaw [c2RecB] = 0 := by rw [detractorRateRaw, if_neg hnot]
  have hpr : promoterRateRaw [c2RecB] = 0 := by rw [promoterRateRaw, if_neg hnot]
  have hnps : npsRaw [c2RecB] = 0 := by rw [npsRaw, if_neg hnot]
  rw [calcNpsMetrics, he, hds, hps, hdr, hpr, hnps]
  norm_num [c2MetricsB, round2_zero, pyTrunc_zero]

theorem c2_metricsAll_eval : calcNpsMetrics c2Rows = c2MetricsAll := by
  have he : effectiveDenominator c2Rows = 1 := by
    norm_num [effectiveDenominator, c2Rows, c2RecA, c2RecB]
  have hds : detractorSum c2Rows = 0 := by
    norm_num [detractorSum, c2Rows, c2RecA, c2RecB]
  have hps : promoterSum c2Rows = 1 := by
    norm_num [promoterSum, c2Rows, c2RecA, c2RecB]
  have hdr : detractorRateRaw c2Rows = 0 := by
    rw [detractorRateRaw, he, hds]
    norm_num
  have hpr : promoterRateRaw c2Rows = 1 := by
    rw [promoterRateRaw, he, hps]
    norm_num
  have hnps : npsRaw c2Rows = 100 := by
    rw [npsRaw, he, hpr, hdr]
    norm_num
  rw [calcNpsMetrics, he, hds, hps, hdr, hpr, hnps]
  norm_num [c2MetricsAll, c2Rows, round2_zero, round2_one, round2_one_hundred, pyTrunc_zero]

theorem c2_row1_eval : dimRowFor c2Rows accountKey (11, "u1") = c2Row1 := by
  have hg : c2Rows.filter (fun r => accountKey r = ((11 : ℤ), ("u1" : String))) = [c2RecA] := by
    decide
  simp only [dimRowFor, hg, c2_metricsA_eval, c2_metricsAll_eval]
  rw [c2Row1, c2MetricsAll, c2MetricsA]
  norm_num [round4_zero, decide_eq_false_iff_not]

theorem c2_row2_eval : dimRowFor c2Rows accountKey (12, "u2") = c2Row2 := by
  have hg : c2Rows.filter (fun r => accountKey r = ((12 : ℤ), ("u2" : String))) = [c2RecB] := by
    decide
  simp only [dimRowFor, hg, c2_metricsB_eval, c2_metricsAll_eval]
  rw [c2Row2, c2MetricsAll, c2MetricsB]
  norm_num [round4_zero, decide_eq_true_eq]

theorem c2_eval : accountDimension c2State 1 = [c2Row1, c2Row2] := by
  have hdf : c2State.df = some c2Df := rfl
  have hsdf : c2Df.rows.filter (fun r => r.supplierId = (1:ℤ)) = c2Rows := by decide
  have hkeys : sortBy keyLe ((c2Rows.map accountKey).dedup) = [(11, "u1"), (12, "u2")] := by
    decide
  simp only [accountDimension, hdf, hsdf]
  rw [if_neg (by decide : ¬ c2Rows = [])]
  rw [dimensionRows, hkeys, List.map_cons, List.map_cons, List.map_nil,
    c2_row1_eval, c2_row2_eval]
  decide

/-- C2 (counterexample): in the sub-account dimension of supplier 1 of the
`c2State` dataset, the zero-weight group (sub-account 12) is flagged as a
negative contributor although its contribution value, (group NPS − supplier
NPS) × weight = (0 − 100) × 0 = 0, is not strictly negative: the source sets
the flag from NPS < supplier NPS, not from contribution < 0. -/
theorem c2_counterexample :
    accountDimension c2State 1 = [c2Row1, c2Row2]
  ∧ c2Row2.negContribution = true
  ∧ (calcNpsMetrics (supplierSlice c2State 1)).nps = 100
  ∧ (calcNpsMetrics (supplierSlice c2State 1)).denom = 1
  ∧ c2Row2.metrics.nps = 0
  ∧ c2Row2.metrics.denom = 0
  ∧ c2Row2.contribution = 0
  ∧ ¬ ((c2Row2.metrics.nps - (calcNpsMetrics (supplierSlice c2State 1)).nps) *
        (c2Row2.metrics.denom / (calcNpsMetrics (supplierSlice c2State 1)).denom) < 0) := by
  have hslice : supplierSlice c2State 1 = c2Rows := by decide
  have hnps : (calcNpsMetrics (supplierSlice c2State 1)).nps = 100 := by
    rw [hslice, c2_metricsAll_eval]
    rfl
  have hden : (calcNpsMetrics (supplierSlice c2State 1)).denom = 1 := by
    rw [hslice, c2_metricsAll_eval]
    rfl
  refine ⟨c2_eval, by decide, hnps, hden, by decide, by decide, by decide, ?_⟩
  rw [hnps, hden]
  norm_num [c2Row2, c2MetricsB]

/-- The flag of each sub-account/follower group is NPS-below-supplier-NPS, and
for groups with positive weight this coincides with contribution < 0. -/
theorem dimensionRows_negContribution (key : Record → ℤ × String) (sdf : List Record)
    (row : DimRow) (hrow : row ∈ dimensionRows key sdf) :
    (row.negContribution = true ↔ row.metrics.nps < (calcNpsMetrics sdf).nps)
  ∧ (0 < (calcNpsMetrics sdf).denom → 0 < row.metrics.denom →
      (row.negContribution = true ↔
        (row.metrics.nps - (calcNpsMetrics sdf).nps) *
          (row.metrics.denom / (calcNpsMetrics sdf).denom) < 0)) := by
  rw [dimensionRows] at hrow
  have hrow2 := (mem_sortBy (byNpsDesc fun (r : DimRow) => r.metrics.nps)).mp hrow
  rcases List.mem_map.mp hrow2 with ⟨k, hk, hkeq⟩
  subst hkeq
  constructor
  · constructor
    · intro h
      exact of_decide_eq_true h
    · intro h
      exact decide_eq_true h
  · intro hsd hmd
    have hw : 0 < (dimRowFor sdf key k).metrics.denom / (calcNpsMetrics sdf).denom :=
      div_pos hmd hsd
    constructor
    · intro h
      have hlt : (dimRowFor sdf key k).metrics.nps < (calcNpsMetrics sdf).nps :=
        of_decide_eq_true h
      exact mul_neg_of_neg_of_pos (sub_neg.mpr hlt) hw
    · intro h
      apply decide_eq_true
      by_contra hc
      push_neg at hc
      have h0 : 0 ≤ (dimRowFor sdf key k).metrics.nps - (calcNpsMetrics sdf).nps :=
        sub_nonneg.mpr hc
      nlinarith [mul_nonneg h0 hw.le]

/-- The flag of each supplier group in the overall analysis is exactly
contribution < 0. -/
theorem overallAnalysisRows_negContribution (rows : List Record) (baseline : ℚ)
    (target : ℤ) (row : SupplierRow)
    (hrow : row ∈ overallAnalysisRows rows baseline target) :
    row.negContribution = true ↔
      (row.metrics.nps - baseline) *
        (if 0 < (rows.map fun r => r.denomV5).sum
         then row.metrics.denom / (rows.map fun r => r.denomV5).sum else 0) < 0 := by
  rw [overallAnalysisRows] at hrow
  rcases mem_assignRanks hrow with ⟨r, hr, i, hieq⟩
  subst hieq
  have hr2 := (mem_sortBy (byNpsDesc fun (r : SupplierRow) => r.metrics.nps)).mp hr
  rcases List.mem_map.mp hr2 with ⟨k, hk, hkeq⟩
  subst hkeq
  constructor
  · intro h
    exact of_decide_eq_true h
  · intro h
    exact decide_eq_true h

/-- C2 (amended): in the supplier (overall) dimension the negative-contribution
flag is true iff the contribution value ((group NPS − reference NPS) × weight)
is strictly negative, as claimed; in the sub-account and follower dimensions
the flag is true iff the group's NPS is strictly below the supplier's NPS,
which agrees with contribution < 0 exactly when the group's weight is positive
(the counterexample's zero-weight group breaks the original claim). -/
theorem c2_negative_contribution_flag :
    (∀ (rows : List Record) (baseline : ℚ) (target : ℤ) (row : SupplierRow),
        row ∈ overallAnalysisRows rows baseline target →
        (row.negContribution = true ↔
          (row.metrics.nps - baseline) *
            (if 0 < (rows.map fun r => r.denomV5).sum
             then row.metrics.denom / (rows.map fun r => r.denomV5).sum else 0) < 0))
  ∧ (∀ (st : NPSAnalyzer) (sid : ℤ) (row : DimRow),
        row ∈ accountDimension st sid →
        ((row.negContribution = true ↔
            row.metrics.nps < (calcNpsMetrics (supplierSlice st sid)).nps)
          ∧ (0 < (calcNpsMetrics (supplierSlice st sid)).denom →
             0 < row.metrics.denom →
             (row.negContribution = true ↔
               (row.metrics.nps - (calcNpsMetrics (supplierSlice st sid)).nps) *
                 (row.metrics.denom / (calcNpsMetrics (supplierSlice st sid)).denom) < 0))))
  ∧ (∀ (st : NPSAnalyzer) (sid : ℤ) (row : DimRow),
        row ∈ followerDimension st sid →
        ((row.negContribution = true ↔
            row.metrics.nps < (calcNpsMetrics (supplierSlice st sid)).nps)
          ∧ (0 < (calcNpsMetrics (supplierSlice st sid)).denom →
             0 < row.metrics.denom →
             (row.negContribution = true ↔
               (row.metrics.nps - (calcNpsMetrics (supplierSlice st sid)).nps) *
                 (row.metrics.denom / (calcNpsMetrics (supplierSlice st sid)).denom) < 0)))) := by
  refine ⟨overallAnalysisRows_negContribution, ?_, ?_⟩
  · intro st sid row hrow
    rcases hdf : st.df with _ | d
    · simp [accountDimension, hdf] at hrow
    · simp only [accountDimension, hdf] at hrow
      by_cases hemp : (d.rows.filter fun r => r.supplierId = sid) = []
      · rw [if_pos hemp] at hrow
        simp at hrow
      · rw [if_neg hemp] at hrow
        have hslice : supplierSlice st sid = d.rows.filter fun r => r.supplierId = sid := by
          simp [supplierSlice, hdf]
        rw [hslice]
        exact dimensionRows_negContribution accountKey _ row hrow
  · intro st sid row hrow
    rcases hdf : st.df with _ | d
    · simp [followerDimension, hdf] at hrow
    · simp only [followerDimension, hdf] at hrow
      by_cases hemp : (d.rows.filter fun r => r.supplierId = sid) = []
      · rw [if_pos hemp] at hrow
        simp at hrow
      · rw [if_neg hemp] at hrow
        have hslice : supplierSlice st sid = d.rows.filter fun r => r.supplierId = sid := by
          simp [supplierSlice, hdf]
        rw [hslice]
        exact dimensionRows_negContribution followerKey _ row hrow

theorem c2_witness :
    c2Row2 ∈ accountDimension c2State 1
  ∧ ((c2Row2.negContribution = true ↔
        c2Row2.metrics.nps < (calcNpsMetrics (supplierSlice c2State 1)).nps)
      ∧ (0 < (calcNpsMetrics (supplierSlice c2State 1)).denom →
         0 < c2Row2.metrics.denom →
         (c2Row2.negContribution = true ↔
           (c2Row2.metrics.nps - (calcNpsMetrics (supplierSlice c2State 1)).nps) *
             (c2Row2.metrics.denom / (calcNpsMetrics (supplierSlice c2State 1)).denom) < 0))) := by
  have hmem : c2Row2 ∈ accountDimension c2State 1 := by
    rw [c2_eval]
    simp
  exact ⟨hmem, c2_negative_contribution_flag.2.1 c2State 1 c2Row2 hmem⟩

end ClaimTwo

section ClaimFive

theorem keyLe_total : ∀ a b : ℤ × String, keyLe a b ∨ keyLe b a := by
  intro a b
  rcases lt_trichotomy a.1 b.1 with h | h | h
  · exact Or.inl (Or.inl h)
  · rcases le_total a.2 b.2 with h2 | h2
    · exact Or.inl (Or.inr ⟨h, h2⟩)
    · exact Or.inr (Or.inr ⟨h.symm, h2⟩)
  · exact Or.inr (Or.inl h)

theorem keyLe_trans : ∀ a b c : ℤ × String, keyLe a b → keyLe b c → keyLe a c := by
  intro a b c h1 h2
  rcases h1 with h1 | ⟨h1e, h1s⟩
  · rcases h2 with h2 | ⟨h2e, h2s⟩
    · exact Or.inl (h1.trans h2)
    · exact Or.inl (h2e ▸ h1)
  · rcases h2 with h2 | ⟨h2e, h2s⟩
    · exact Or.inl (h1e ▸ h2)
    · exact Or.inr ⟨h1e.trans h2e, h1s.trans h2s⟩

theorem byNpsDesc_total {α : Type} (f : α → ℚ) :
    ∀ a b, byNpsDesc f a b ∨ byNpsDesc f b a :=
  fun a b => le_total (f b) (f a)

theorem byNpsDesc_trans {α : Type} (f : α → ℚ) :
    ∀ a b c, byNpsDesc f a b → byNpsDesc f b c → byNpsDesc f a c :=
  fun _ _ _ h1 h2 => le_trans h2 h1

/-- When supplier names are a function of supplier ids (the data-model
invariant), the number of distinct groupby pairs equals the number of
distinct supplier ids. -/
theorem dedup_pairs_length (rows : List Record)
    (hname : ∀ r ∈ rows, ∀ s ∈ rows,
      r.supplierId = s.supplierId → r.supplierName = s.supplierName) :
    ((rows.map fun r => (r.supplierId, r.supplierName)).dedup).length
      = ((rows.map fun r => r.supplierId).dedup).length := by
  have e1 := List.toFinset_card_of_nodup
    (List.nodup_dedup (rows.map fun r => (r.supplierId, r.supplierName)))
  have e2 := List.toFinset_card_of_nodup
    (List.nodup_dedup (rows.map fun r => r.supplierId))
  rw [← e1, ← e2]
  have hts1 : ((rows.map fun r => (r.supplierId, r.supplierName)).dedup).toFinset
      = (rows.map fun r => (r.supplierId, r.supplierName)).toFinset := by
    ext x
    simp [List.mem_dedup]
  have hts2 : ((rows.map fun r => r.supplierId).dedup).toFinset
      = (rows.map fun r => r.supplierId).toFinset := by
    ext x
    simp [List.mem_dedup]
  rw [hts1, hts2]
  have himg : (rows.map fun r => (r.supplierId, r.supplierName)).toFinset.image Prod.fst
      = (rows.map fun r => r.supplierId).toFinset := by
    ext x
    constructor
    · intro hx
      rcases Finset.mem_image.mp hx with ⟨p, hp, hpx⟩
      rcases List.mem_map.mp (List.mem_toFinset.mp hp) with ⟨r, hr, hrp⟩
      apply List.mem_toFinset.mpr
      apply List.mem_map.mpr
      exact ⟨r, hr, by rw [← hpx, ← hrp]⟩
    · intro hx
      rcases List.mem_map.mp (List.mem_toFinset.mp hx) with ⟨r, hr, hrx⟩
      apply Finset.mem_image.mpr
      refine ⟨(r.supplierId, r.supplierName), ?_, hrx⟩
      exact List.mem_toFinset.mpr (List.mem_map.mpr ⟨r, hr, rfl⟩)
  have hinj : Set.InjOn Prod.fst
      ((rows.map fun r => (r.supplierId, r.supplierName)).toFinset : Set (ℤ × String)) := by
    intro p hp q hq hfst
    rw [List.coe_toFinset, Set.mem_setOf_eq] at hp hq
    rcases List.mem_map.mp hp with ⟨r, hr, hrp⟩
    rcases List.mem_map.mp hq with ⟨s, hs, hsq⟩
    subst hrp
    subst hsq
    have hid : r.supplierId = s.supplierId := hfst
    have hnm := hname r hr s hs hid
    rw [Prod.ext_iff]
    exact ⟨hid, hnm⟩
  rw [← himg]
  exact (Finset.card_image_of_injOn hinj).symm

/-- C5: the ranks of the overall analysis are exactly 1..k in output order
(k = number of distinct suppliers, given the data-model invariant that a
supplier id determines its name), the output is sorted by NPS in descending
order, and groups with exactly equal NPS keep their pre-sort group-discovery
relative order (pandas discovers groups in ascending key order, so among
equal-NPS rows supplier ids appear in strictly ascending order). -/
theorem c5_supplier_ranking (rows : List Record) (baseline : ℚ) (target : ℤ)
    (hname : ∀ r ∈ rows, ∀ s ∈ rows,
      r.supplierId = s.supplierId → r.supplierName = s.supplierName) :
    ((overallAnalysisRows rows baseline target).map fun r => r.rank)
        = List.range' 1 ((rows.map fun r => r.supplierId).dedup.length)
  ∧ ((overallAnalysisRows rows baseline target).map
        fun r => (r.metrics.nps, r.supplierId)).Pairwise
      (fun p q => q.1 ≤ p.1 ∧ (p.1 = q.1 → p.2 < q.2)) := by
  constructor
  · rw [overallAnalysisRows, assignRanks_map_rank]
    congr 1
    rw [(sortBy_perm (byNpsDesc fun (r : SupplierRow) => r.metrics.nps) _).length_eq,
      List.length_map, supplierKeys, (sortBy_perm keyLe _).length_eq,
      dedup_pairs_length rows hname]
  · have hkeysPS : (supplierKeys rows).Pairwise keyLe :=
      sortBy_pairwise keyLe keyLe_total keyLe_trans _
    have hkeysND : (supplierKeys rows).Nodup :=
      ((sortBy_perm keyLe _).symm).nodup
        (List.nodup_dedup (rows.map fun r => (r.supplierId, r.supplierName)))
    have hkeysLt : (supplierKeys rows).Pairwise (fun k k2 => k.1 < k2.1) := by
      have hcomb := hkeysPS.and hkeysND
      refine hcomb.imp_of_mem ?_
      intro a b ha hb hab
      rcases hab with ⟨hle, hne⟩
      rcases hle with h | ⟨he, hs⟩
      · exact h
      · exfalso
        apply hne
        simp only [supplierKeys] at ha hb
        rcases List.mem_map.mp (List.mem_dedup.mp ((mem_sortBy keyLe).mp ha)) with
          ⟨r, hr, hra⟩
        rcases List.mem_map.mp (List.mem_dedup.mp ((mem_sortBy keyLe).mp hb)) with
          ⟨s, hs2, hsb⟩
        subst hra
        subst hsb
        have hnm := hname r hr s hs2 he
        rw [Prod.ext_iff]
        exact ⟨he, hnm⟩
    have hpre : ((supplierKeys rows).map (supplierRowFor rows baseline target)).Pairwise
        (fun a b => a.supplierId < b.supplierId) := by
      rw [List.pairwise_map]
      exact hkeysLt
    have hsorted := sortBy_pairwise (byNpsDesc fun (r : SupplierRow) => r.metrics.nps)
      (byNpsDesc_total _) (byNpsDesc_trans _)
      ((supplierKeys rows).map (supplierRowFor rows baseline target))
    have hstab := sortBy_pairwise_tie (byNpsDesc fun (r : SupplierRow) => r.metrics.nps)
      (fun a b => a.supplierId < b.supplierId)
      (hpre.imp fun h _ _ => h)
    have hcomb := hsorted.and hstab
    rw [overallAnalysisRows,
      assignRanks_map (fun r => (r.metrics.nps, r.supplierId)) (fun r i => rfl),
      List.pairwise_map]
    refine hcomb.imp ?_
    intro a b hab
    rcases hab with ⟨h1, h2⟩
    exact ⟨h1, fun heq => h2 h1 (le_of_eq heq)⟩

theorem c5_witness :
    (∀ r ∈ sampleRows, ∀ s ∈ sampleRows,
      r.supplierId = s.supplierId → r.supplierName = s.supplierName)
  ∧ (((overallAnalysisRows sampleRows (100/3) 60).map fun r => r.rank)
        = List.range' 1 ((sampleRows.map fun r => r.supplierId).dedup.length)
      ∧ ((overallAnalysisRows sampleRows (100/3) 60).map
            fun r => (r.metrics.nps, r.supplierId)).Pairwise
          (fun p q => q.1 ≤ p.1 ∧ (p.1 = q.1 → p.2 < q.2))) :=
  ⟨by decide, c5_supplier_ranking sampleRows (100/3) 60 (by decide)⟩

end ClaimFive

section ClaimFour

theorem getLast?_cons_of_ne_nil {α : Type} {l : List α} (h : l ≠ []) (a : α) :
    (a :: l).getLast? = l.getLast? := by
  cases l with
  | nil => exact absurd rfl h
  | cons b l2 => exact List.getLast?_cons_cons

theorem dateDimensionAux_ne_nil (sdf : List Record) (dates : List ℕ) (h : dates ≠ [])
    (cd : ℚ) (cdet : ℤ) (cp : ℚ) (prev : Option ℚ) :
    dateDimensionAux sdf dates cd cdet cp prev ≠ [] := by
  cases dates with
  | nil => exact absurd rfl h
  | cons d rest => simp [dateDimensionAux]

/-- The cumulative NPS reported after the last date equals the formula applied
to the accumulated (rounded) per-date subtotals. -/
theorem dateDimensionAux_getLast (sdf : List Record) :
    ∀ (dates : List ℕ), dates ≠ [] →
    ∀ (cd : ℚ) (cdet : ℤ) (cp : ℚ) (prev : Option ℚ),
    ((dateDimensionAux sdf dates cd cdet cp prev).map fun r => r.cumNps).getLast?
      = some (round2 (cumulativeNps
          (cd + (dates.map fun dd =>
            (calcNpsMetrics (sdf.filter fun r => r.travelDate = dd)).denom).sum)
          (cdet + (dates.map fun dd =>
            (calcNpsMetrics (sdf.filter fun r => r.travelDate = dd)).detractor).sum)
          (cp + (dates.map fun dd =>
            (calcNpsMetrics (sdf.filter fun r => r.travelDate = dd)).promoter).sum))) := by
  intro dates
  induction dates with
  | nil => intro h; exact absurd rfl h
  | cons d rest ih =>
      intro _ cd cdet cp prev
      by_cases hr : rest = []
      · subst hr
        simp only [dateDimensionAux, List.map_cons, List.map_nil, List.sum_cons,
          List.sum_nil, List.getLast?_singleton]
        norm_num
      · have hm := dateDimensionAux_ne_nil sdf rest hr
          (cd + (calcNpsMetrics (sdf.filter fun r => r.travelDate = d)).denom)
          (cdet + (calcNpsMetrics (sdf.filter fun r => r.travelDate = d)).detractor)
          (cp + (calcNpsMetrics (sdf.filter fun r => r.travelDate = d)).promoter)
          (some (cumulativeNps
            (cd + (calcNpsMetrics (sdf.filter fun r => r.travelDate = d)).denom)
            (cdet + (calcNpsMetrics (sdf.filter fun r => r.travelDate = d)).detractor)
            (cp + (calcNpsMetrics (sdf.filter fun r => r.travelDate = d)).promoter)))
        have hmapne : (dateDimensionAux sdf rest
            (cd + (calcNpsMetrics (sdf.filter fun r => r.travelDate = d)).denom)
            (cdet + (calcNpsMetrics (sdf.filter fun r => r.travelDate = d)).detractor)
            (cp + (calcNpsMetrics (sdf.filter fun r => r.travelDate = d)).promoter)
            (some (cumulativeNps
              (cd + (calcNpsMetrics (sdf.filter fun r => r.travelDate = d)).denom)
              (cdet + (calcNpsMetrics (sdf.filter fun r => r.travelDate = d)).detractor)
              (cp + (calcNpsMetrics (sdf.filter fun r => r.travelDate = d)).promoter)))).map
            (fun r => r.cumNps) ≠ [] := by
          intro hc
          exact hm (List.map_eq_nil_iff.mp hc)
        simp only [dateDimensionAux, List.map_cons, List.sum_cons]
        rw [getLast?_cons_of_ne_nil hmapne, ih hr, add_assoc cd, add_assoc cdet,
          add_assoc cp]

/-- C4 (amended): when every date's rounded subtotals are exact — the per-date
有效分母 and 推荐分 are unchanged by 2-decimal rounding and the per-date 诋毁数
is unchanged by integer truncation — the cumulative NPS after the last date
equals the supplier's overall NPS computed directly from all its rows.  (The
counterexample shows the equality fails in general, because the running totals
accumulate the rounded per-date values.) -/
theorem c4_cumulative_nps (st : NPSAnalyzer) (sid : ℤ)
    (hne : supplierSlice st sid ≠ [])
    (hex : ∀ dd ∈ (supplierSlice st sid).map fun r => r.travelDate,
        round2 (effectiveDenominator
            ((supplierSlice st sid).filter fun r => r.travelDate = dd))
          = effectiveDenominator
            ((supplierSlice st sid).filter fun r => r.travelDate = dd)
      ∧ ((pyTrunc (detractorSum
            ((supplierSlice st sid).filter fun r => r.travelDate = dd)) : ℚ)
          = detractorSum ((supplierSlice st sid).filter fun r => r.travelDate = dd))
      ∧ round2 (promoterSum ((supplierSlice st sid).filter fun r => r.travelDate = dd))
          = promoterSum ((supplierSlice st sid).filter fun r => r.travelDate = dd)) :
    ((dateDimension st sid).map fun r => r.cumNps).getLast?
      = some ((calcNpsMetrics (supplierSlice st sid)).nps) := by
  rcases hdf : st.df with _ | d
  · simp only [supplierSlice, hdf] at hne
    exact absurd rfl hne
  · have hslice : supplierSlice st sid = d.rows.filter fun r => r.supplierId = sid := by
      simp [supplierSlice, hdf]
    rw [hslice] at hne hex
    rw [hslice]
    simp only [dateDimension, hdf]
    rw [if_neg hne]
    revert hne hex
    generalize (d.rows.filter fun r => r.supplierId = sid) = sdf
    intro hex hne
    have hnd : (sortBy (fun a b : ℕ => a ≤ b)
        ((sdf.map fun r => r.travelDate).dedup)).Nodup :=
      ((sortBy_perm _ _).symm).nodup (List.nodup_dedup _)
    have hall : ∀ r ∈ sdf, r.travelDate ∈ sortBy (fun a b : ℕ => a ≤ b)
        ((sdf.map fun r => r.travelDate).dedup) :=
      fun r hr => (mem_sortBy _).mpr (List.mem_dedup.mpr (List.mem_map.mpr ⟨r, hr, rfl⟩))
    have hdatesne : sortBy (fun a b : ℕ => a ≤ b)
        ((sdf.map fun r => r.travelDate).dedup) ≠ [] := by
      apply sortBy_ne_nil
      rw [Ne, List.dedup_eq_nil, List.map_eq_nil_iff]
      exact hne
    have hmem : ∀ dd ∈ sortBy (fun a b : ℕ => a ≤ b)
        ((sdf.map fun r => r.travelDate).dedup), dd ∈ sdf.map fun r => r.travelDate :=
      fun dd hdd => List.mem_dedup.mp ((mem_sortBy _).mp hdd)
    rw [dateDimensionAux_getLast sdf _ hdatesne 0 0 0 none, zero_add, zero_add, zero_add]
    have hA : ((sortBy (fun a b : ℕ => a ≤ b) ((sdf.map fun r => r.travelDate).dedup)).map
        fun dd => (calcNpsMetrics (sdf.filter fun r => r.travelDate = dd)).denom).sum
        = effectiveDenominator sdf := by
      have hpt : ∀ dd ∈ sortBy (fun a b : ℕ => a ≤ b) ((sdf.map fun r => r.travelDate).dedup),
          (calcNpsMetrics (sdf.filter fun r => r.travelDate = dd)).denom
            = ((sdf.filter fun r => r.travelDate = dd).map fun r => r.denomV5).sum :=
        fun dd hdd => (hex dd (hmem dd hdd)).1
      rw [List.map_congr_left hpt]
      exact sum_map_filter_partition (fun r => r.denomV5) sdf _ hnd hall
    have hC : ((sortBy (fun a b : ℕ => a ≤ b) ((sdf.map fun r => r.travelDate).dedup)).map
        fun dd => (calcNpsMetrics (sdf.filter fun r => r.travelDate = dd)).promoter).sum
        = promoterSum sdf := by
      have hpt : ∀ dd ∈ sortBy (fun a b : ℕ => a ≤ b) ((sdf.map fun r => r.travelDate).dedup),
          (calcNpsMetrics (sdf.filter fun r => r.travelDate = dd)).promoter
            = ((sdf.filter fun r => r.travelDate = dd).map
                fun r => r.promoterV5 * r.denomV5).sum :=
        fun dd hdd => (hex dd (hmem dd hdd)).2.2
      rw [List.map_congr_left hpt]
      exact sum_map_filter_partition (fun r => r.promoterV5 * r.denomV5) sdf _ hnd hall
    have hB : ((((sortBy (fun a b : ℕ => a ≤ b) ((sdf.map fun r => r.travelDate).dedup)).map
        fun dd => (calcNpsMetrics (sdf.filter fun r => r.travelDate = dd)).detractor).sum : ℤ) : ℚ)
        = detractorSum sdf := by
      rw [Int.cast_list_sum, List.map_map]
      have hpt : ∀ dd ∈ sortBy (fun a b : ℕ => a ≤ b) ((sdf.map fun r => r.travelDate).dedup),
          ((Int.cast ∘ fun dd =>
            (calcNpsMetrics (sdf.filter fun r => r.travelDate = dd)).detractor) dd : ℚ)
            = ((sdf.filter fun r => r.travelDate = dd).map fun r => r.detractorV5).sum :=
        fun dd hdd => (hex dd (hmem dd hdd)).2.1
      rw [List.map_congr_left hpt]
      exact sum_map_filter_partition (fun r => r.detractorV5) sdf _ hnd hall
    rw [cumulativeNps, hA, hB, hC]
    have hfin : (if 0 < effectiveDenominator sdf
        then ((promoterSum sdf / effectiveDenominator sdf)
              - (detractorSum sdf / effectiveDenominator sdf)) * 100 else 0)
        = npsRaw sdf := by
      by_cases hD : 0 < effectiveDenominator sdf
      · rw [if_pos hD, npsRaw, if_pos hD, promoterRateRaw, if_pos hD,
          detractorRateRaw, if_pos hD]
      · rw [if_neg hD, npsRaw, if_neg hD]
    rw [hfin]
    rfl

def c4Rec1 : Record :=
  { orderId := "d1", supplierId := 5, supplierName := "戊", accountUid := 15,
    accountName := "a5", travelDate := 1, followerId := 25, followerName := "f5",
    denomV5 := 1, detractorV5 := 0, promoterV5 := 3/500, hasFeedback := 0 }

def c4Rec2 : Record :=
  { orderId := "d2", supplierId := 5, supplierName := "戊", accountUid := 15,
    accountName := "a5", travelDate := 2, followerId := 25, followerName := "f5",
    denomV5 := 1, detractorV5 := 0, promoterV5 := 0, hasFeedback := 0 }

def c4Rows : List Record := [c4Rec1, c4Rec2]

def c4Df : DataFrame := { columns := REQUIRED_COLUMNS, rows := c4Rows }

def c4State : NPSAnalyzer := { npsTarget := 60, df := some c4Df, overallNps := 0 }

def c4M1 : Metrics :=
  { orderCount := 1, denom := 1, detractor := 0, promoter := 1/100,
    detractorRate := 0, promoterRate := 3/5, nps := 3/5 }

def c4M2 : Metrics :=
  { orderCount := 1, denom := 1, detractor := 0, promoter := 0,
    detractorRate := 0, promoterRate := 0, nps := 0 }

theorem c4_m1_eval : calcNpsMetrics [c4Rec1] = c4M1 := by
  have he : effectiveDenominator [c4Rec1] = 1 := by
    norm_num [effectiveDenominator, c4Rec1]
  have hds : detractorSum [c4Rec1] = 0 := by norm_num [detractorSum, c4Rec1]
  have hps : promoterSum [c4Rec1] = 3/500 := by norm_num [promoterSum, c4Rec1]
  have hdr : detractorRateRaw [c4Rec1] = 0 := by
    rw [detractorRateRaw, he, hds]
    norm_num
  have hpr : promoterRateRaw [c4Rec1] = 3/500 := by
    rw [promoterRateRaw, he, hps]
    norm_num
  have hnps : npsRaw [c4Rec1] = 3/5 := by
    rw [npsRaw, he, hpr, hdr]
    norm_num
  have hr1 : round2 ((3:ℚ)/500) = 1/100 := by
    have h := @round2_eval_high (3/500) 0 (by norm_num) (by norm_num) (by norm_num)
    rw [h]
    norm_num
  have hr2 : round2 ((3:ℚ)/5) = 3/5 := by
    have h := @round2_eval_low (3/5) 60 (by norm_num) (by norm_num)
    rw [h]
    norm_num
  rw [calcNpsMetrics, he, hds, hps, hdr, hpr, hnps]
  norm_num [c4M1, round2_zero, round2_one, pyTrunc_zero, hr1, hr2]

theorem c4_m2_eval : calcNpsMetrics [c4Rec2] = c4M2 := by
  have he : effectiveDenominator [c4Rec2] = 1 := by
    norm_num [effectiveDenominator, c4Rec2]
  have hds : detractorSum [c4Rec2] = 0 := by norm_num [detractorSum, c4Rec2]
  have hps : promoterSum [c4Rec2] = 0 := by norm_num [promoterSum, c4Rec2]
  have hdr : detractorRateRaw [c4Rec2] = 0 := by
    rw [detractorRateRaw, he, hds]
    norm_num
  have hpr : promoterRateRaw [c4Rec2] = 0 := by
    rw [promoterRateRaw, he, hps]
    norm_num
  have hnps : npsRaw [c4Rec2] = 0 := by
    rw [npsRaw, he, hpr, hdr]
    norm_num
  rw [calcNpsMetrics, he, hds, hps, hdr, hpr, hnps]
  norm_num [c4M2, round2_zero, round2_one, pyTrunc_zero]

/-- C4 (counterexample): for supplier 5 of `c4State` (scores 0.006 and 0 on two
weight-1 rows), the date dimension's final cumulative NPS is 0.5 — the per-date
推荐分 0.006 was rounded up to 0.01 before being accumulated — while the
supplier's overall NPS computed directly from all rows is 0.3. -/
theorem c4_counterexample :
    ((dateDimension c4State 5).map fun r => r.cumNps).getLast? = some (1/2)
  ∧ (calcNpsMetrics (supplierSlice c4State 5)).nps = 3/10
  ∧ ¬ ((1:ℚ)/2 = 3/10) := by
  have hdf : c4State.df = some c4Df := rfl
  have hsdf : c4Df.rows.filter (fun r => r.supplierId = (5:ℤ)) = c4Rows := rfl
  have hdates : sortBy (fun a b : ℕ => a ≤ b) ((c4Rows.map fun r => r.travelDate).dedup)
      = [1, 2] := rfl
  have hg1 : c4Rows.filter (fun r => r.travelDate = 1) = [c4Rec1] := rfl
  have hg2 : c4Rows.filter (fun r => r.travelDate = 2) = [c4Rec2] := rfl
  have hc2 : round2 ((1:ℚ)/2) = 1/2 := by
    have h := @round2_eval_low (1/2) 50 (by norm_num) (by norm_num)
    rw [h]
    norm_num
  refine ⟨?_, ?_, by norm_num⟩
  · simp only [dateDimension, hdf, hsdf]
    rw [if_neg (by intro hc; exact absurd (congrArg List.length hc) (by norm_num [c4Rows]) : ¬ c4Rows = [])]
    rw [hdates]
    simp only [dateDimensionAux, hg1, hg2, c4_m1_eval, c4_m2_eval, List.map_cons,
      List.map_nil]
    norm_num [cumulativeNps, c4M1, c4M2, round2_one, hc2, List.getLast?_cons_cons,
      List.getLast?_singleton]
  · have hslice : supplierSlice c4State 5 = c4Rows := rfl
    have he : effectiveDenominator c4Rows = 2 := by
      norm_num [effectiveDenominator, c4Rows, c4Rec1, c4Rec2]
    have hds : detractorSum c4Rows = 0 := by
      norm_num [detractorSum, c4Rows, c4Rec1, c4Rec2]
    have hps : promoterSum c4Rows = 3/500 := by
      norm_num [promoterSum, c4Rows, c4Rec1, c4Rec2]
    have hdr : detractorRateRaw c4Rows = 0 := by
      rw [detractorRateRaw, he, hds]
      norm_num
    have hpr : promoterRateRaw c4Rows = 3/1000 := by
      rw [promoterRateRaw, he, hps]
      norm_num
    have hnps : npsRaw c4Rows = 3/10 := by
      rw [npsRaw, he, hpr, hdr]
      norm_num
    have hr : round2 ((3:ℚ)/10) = 3/10 := by
      have h := @round2_eval_low (3/10) 30 (by norm_num) (by norm_num)
      rw [h]
      norm_num
    rw [hslice]
    show round2 (npsRaw c4Rows) = 3/10
    rw [hnps, hr]

theorem c4_witness :
    (supplierSlice sampleState 1 ≠ []
      ∧ (∀ dd ∈ (supplierSlice sampleState 1).map fun r => r.travelDate,
          round2 (effectiveDenominator
              ((supplierSlice sampleState 1).filter fun r => r.travelDate = dd))
            = effectiveDenominator
              ((supplierSlice sampleState 1).filter fun r => r.travelDate = dd)
        ∧ ((pyTrunc (detractorSum
              ((supplierSlice sampleState 1).filter fun r => r.travelDate = dd)) : ℚ)
            = detractorSum ((supplierSlice sampleState 1).filter fun r => r.travelDate = dd))
        ∧ round2 (promoterSum
              ((supplierSlice sampleState 1).filter fun r => r.travelDate = dd))
            = promoterSum ((supplierSlice sampleState 1).filter fun r => r.travelDate = dd)))
  ∧ ((dateDimension sampleState 1).map fun r => r.cumNps).getLast?
      = some ((calcNpsMetrics (supplierSlice sampleState 1)).nps) := by
  have hne : supplierSlice sampleState 1 ≠ [] := by decide
  have hex : ∀ dd ∈ (supplierSlice sampleState 1).map fun r => r.travelDate,
      round2 (effectiveDenominator
          ((supplierSlice sampleState 1).filter fun r => r.travelDate = dd))
        = effectiveDenominator
          ((supplierSlice sampleState 1).filter fun r => r.travelDate = dd)
    ∧ ((pyTrunc (detractorSum
          ((supplierSlice sampleState 1).filter fun r => r.travelDate = dd)) : ℚ)
        = detractorSum ((supplierSlice sampleState 1).filter fun r => r.travelDate = dd))
    ∧ round2 (promoterSum
          ((supplierSlice sampleState 1).filter fun r => r.travelDate = dd))
        = promoterSum ((supplierSlice sampleState 1).filter fun r => r.travelDate = dd) := by
    intro dd hdd
    have hmap : (supplierSlice sampleState 1).map (fun r => r.travelDate) = [1, 2] := by
      decide
    rw [hmap] at hdd
    have hdd2 : dd = 1 ∨ dd = 2 := by simpa using hdd
    rcases hdd2 with rfl | rfl
    · refine ⟨?_, ?_, ?_⟩
      · have hval : effectiveDenominator
            ((supplierSlice sampleState 1).filter fun r => r.travelDate = 1) = 1 := by
          norm_num [supplierSlice, sampleState, sampleDf, sampleRows,
            effectiveDenominator, List.filter]
        rw [hval, round2_one]
      · have hval : detractorSum
            ((supplierSlice sampleState 1).filter fun r => r.travelDate = 1) = 1 := by
          norm_num [supplierSlice, sampleState, sampleDf, sampleRows,
            detractorSum, List.filter]
        rw [hval, pyTrunc_one]
        norm_num
      · have hval : promoterSum
            ((supplierSlice sampleState 1).filter fun r => r.travelDate = 1) = 0 := by
          norm_num [supplierSlice, sampleState, sampleDf, sampleRows,
            promoterSum, List.filter]
        rw [hval, round2_zero]
    · refine ⟨?_, ?_, ?_⟩
      · have hval : effectiveDenominator
            ((supplierSlice sampleState 1).filter fun r => r.travelDate = 2) = 1 := by
          norm_num [supplierSlice, sampleState, sampleDf, sampleRows,
            effectiveDenominator, List.filter]
        rw [hval, round2_one]
      · have hval : detractorSum
            ((supplierSlice sampleState 1).filter fun r => r.travelDate = 2) = 0 := by
          norm_num [supplierSlice, sampleState, sampleDf, sampleRows,
            detractorSum, List.filter]
        rw [hval, pyTrunc_zero]
        norm_num
      · have hval : promoterSum
            ((supplierSlice sampleState 1).filter fun r => r.travelDate = 2) = 1 := by
          norm_num [supplierSlice, sampleState, sampleDf, sampleRows,
            promoterSum, List.filter]
        rw [hval, round2_one]
  exact ⟨⟨hne, hex⟩, c4_cumulative_nps sampleState 1 hne hex⟩

end ClaimFour

end NPSApp
